import Mathlib

/-!
# logx: a leveled logger over the standard `log` package

A shallow embedding of `logger.go` (package `logx`).

* Go strings are Lean `String`s; a `Level` is an integer.
* A `*Logger` that may be nil is an `Option Logger`; an `io.Writer` that may be
  nil is an `Option Writer`.
* The world holds the content of every sink, the clock reading and a counter a
  call-counting producer stub increments.  An operation either returns the new
  world or panics (`Except Fault World`).
* `fmt.Sprintf` is a parameter of the operations that use it; `fmt.Sprint` and
  the part of the standard `log` package the logger goes through
  (`log.New`, `Logger.Print`, `Logger.Output`, the header layout) are written
  out after their documented behaviour.
-/

namespace Logx

/-! ## Levels -/

/-- Level represents a logging level (`type Level int`). -/
abbrev Level := Int

/-- Fine is used to log fine granularity messages. -/
abbrev Fine : Level := 10

/-- Debug is used to log debug messages. -/
abbrev Debug : Level := 20

/-- Info is used to log informative messages. -/
abbrev Info : Level := 30

/-- Warn is used to log warning messages. -/
abbrev Warn : Level := 40

/-- Error is used to log error messages. -/
abbrev Error : Level := 50

/-- Off turns off logging. -/
abbrev Off : Level := 99

/-- String returns a string representation for the logging level
(`func (level Level) String() string`). -/
def Level.String (level : Level) : String :=
  if level = Fine then "Fine"
  else if level = Debug then "Debug"
  else if level = Info then "Info"
  else if level = Warn then "Warn"
  else if level = Error then "Error"
  else if level = Off then "Off"
  else "Unknown"

/-- The function `label` returns a label for the specified logging level. -/
def label (level : Level) : String :=
  if level = Fine then "[FINE]  "
  else if level = Debug then "[DEBUG] "
  else if level = Info then "[INFO]  "
  else if level = Warn then "[WARN]  "
  else if level = Error then "[ERROR] "
  else ""

/-! ## Values, sinks and the world -/

/-- A value passed as `interface{}`: the operand kinds the model distinguishes. -/
inductive Value where
  | str (s : String)
  | int (i : Int)
  | bool (b : Bool)
  deriving DecidableEq, Repr

/-- The formatting function `fmt.Sprintf`, kept abstract: the substitution verbs
are the concern of package `fmt`. -/
abbrev Formatter := String → List Value → String

/-- A broken-down date and time of day, as `Time.Date`, `Time.Clock` and
`Time.Nanosecond` report it. -/
structure Civil where
  year : Nat
  month : Nat
  day : Nat
  hour : Nat
  min : Nat
  sec : Nat
  nsec : Nat
  deriving DecidableEq, Repr

/-- A `time.Time`: one instant, read in the local zone and in UTC. -/
structure Time where
  loc : Civil
  utc : Civil
  deriving DecidableEq, Repr

/-- The method `Time.UTC`: the same instant with its location set to UTC. -/
def Time.UTC (t : Time) : Time := { loc := t.utc, utc := t.utc }

/-- A non-nil `io.Writer`: the handle of a sink that keeps every byte written
to it, as the `bytes.Buffer` of the tests does. -/
abbrev Writer := Nat

/-- The state outside the logger. -/
structure World where
  /-- The content of each sink. -/
  sinks : Writer → String
  /-- The reading `time.Now()` gives. -/
  now : Time
  /-- The file and line `runtime.Caller` reports. -/
  callerFile : String
  callerLine : Nat
  /-- The number of invocations a call-counting producer has recorded. -/
  calls : Nat

/-- The effect of `out.Write(p)` on a sink that appends. -/
def World.write (w : World) (out : Writer) (p : String) : World :=
  { w with sinks := fun h => if h = out then w.sinks h ++ p else w.sinks h }

/-- A run-time panic: the dereference of a nil pointer, or a panic a producer
raises itself. -/
inductive Fault where
  | nilDereference
  | raised (msg : String)
  deriving DecidableEq, Repr

/-- A message producer `func() string`: it may read and change the world, and
it may panic. -/
abbrev Producer := World → Except Fault (String × World)

/-- A producer that returns `s` and counts its invocations. -/
def countingStub (s : String) : Producer :=
  fun w => .ok (s, { w with calls := w.calls + 1 })

/-- The relation `strings.Contains(s, substr)`. -/
def Contains (s substr : String) : Prop := substr.data <:+: s.data

instance (s substr : String) : Decidable (Contains s substr) := by
  unfold Contains; infer_instance

/-! ## Package `fmt`: `Sprint` -/

/-- The default format (`%v`) of an operand. -/
def Value.default : Value → String
  | .str s => s
  | .int i => toString i
  | .bool b => if b then "true" else "false"

/-- Tells whether an operand is a string. -/
def Value.isString : Value → Bool
  | .str _ => true
  | _ => false

/-- The function `fmt.Sprint`: the operands in their default formats, with a
space added between operands when neither is a string. -/
def Sprint : List Value → String
  | [] => ""
  | [v] => v.default
  | a :: b :: rest =>
    a.default ++ (if !a.isString && !b.isString then " " else "") ++ Sprint (b :: rest)

/-! ## Package `log` -/

/-- Flag `log.Ldate`: the date in the local time zone. -/
abbrev Ldate : Nat := 1
/-- Flag `log.Ltime`: the time in the local time zone. -/
abbrev Ltime : Nat := 2
/-- Flag `log.Lmicroseconds`: microsecond resolution. -/
abbrev Lmicroseconds : Nat := 4
/-- Flag `log.Llongfile`: full file name and line number. -/
abbrev Llongfile : Nat := 8
/-- Flag `log.Lshortfile`: final file name element and line number. -/
abbrev Lshortfile : Nat := 16
/-- Flag `log.LUTC`: use UTC rather than the local time zone. -/
abbrev LUTC : Nat := 32
/-- Flag `log.Lmsgprefix`: move the prefix from the line start to before the message. -/
abbrev Lmsgprefix : Nat := 64
/-- Flag `log.LstdFlags`: the initial values for the standard logger. -/
abbrev LstdFlags : Nat := Ldate ||| Ltime

/-- Tells whether a flag set has a bit of `mask`. -/
def hasFlag (flag mask : Nat) : Bool := flag &&& mask != 0

/-- The helper `itoa` of package `log`: decimal, zero-padded to width `wid`. -/
def itoa (i wid : Nat) : String :=
  let digits := (Nat.toDigits 10 i)
  String.mk (List.replicate (wid - digits.length) '0' ++ digits)

/-- The final element of a file path, as `Lshortfile` prints it. -/
def shortFile (file : String) : String :=
  String.mk (file.data.reverse.takeWhile (fun c => c != '/')).reverse

/-- The header `log.formatHeader` writes before the message. -/
def formatHeader (t : Time) (pfx : String) (flag : Nat) (file : String) (line : Nat) : String :=
  let p1 := if hasFlag flag Lmsgprefix then "" else pfx
  let t := if hasFlag flag LUTC then t.UTC else t
  let date :=
    if hasFlag flag Ldate then
      itoa t.loc.year 4 ++ "/" ++ itoa t.loc.month 2 ++ "/" ++ itoa t.loc.day 2 ++ " "
    else ""
  let clock :=
    if hasFlag flag (Ltime ||| Lmicroseconds) then
      itoa t.loc.hour 2 ++ ":" ++ itoa t.loc.min 2 ++ ":" ++ itoa t.loc.sec 2
        ++ (if hasFlag flag Lmicroseconds then "." ++ itoa (t.loc.nsec / 1000) 6 else "")
        ++ " "
    else ""
  let stamp := if hasFlag flag (Ldate ||| Ltime ||| Lmicroseconds) then date ++ clock else ""
  let place :=
    if hasFlag flag (Lshortfile ||| Llongfile) then
      (if hasFlag flag Lshortfile then shortFile file else file) ++ ":" ++ itoa line 0 ++ ": "
    else ""
  let p2 := if hasFlag flag Lmsgprefix then pfx else ""
  p1 ++ stamp ++ place ++ p2

/-- A `log.Logger` of the standard library: destination, prefix and flags. -/
structure StdLogger where
  out : Writer
  pfx : String
  flag : Nat
  deriving DecidableEq, Repr

/-- The constructor `log.New(out, prefix, flag)`. -/
def StdLogger.New (out : Writer) (pfx : String) (flag : Nat) : StdLogger :=
  { out := out, pfx := pfx, flag := flag }

/-- The line `Logger.Output` hands to the writer: the header, the text, and a
newline if the last character of the text is not already a newline. -/
def StdLogger.line (l : StdLogger) (s : String) (w : World) : String :=
  formatHeader w.now l.pfx l.flag w.callerFile w.callerLine ++ s
    ++ (if s.data.getLast? = some '\n' then "" else "\n")

/-- The method `Logger.Output`: one `Write` of the whole line; the writer's
error is not looked at by `Print`. -/
def StdLogger.Output (l : StdLogger) (s : String) (w : World) : World :=
  w.write l.out (l.line s w)

/-- The method `Logger.Print(v...)`: `Output` of `fmt.Sprint(v...)`. -/
def StdLogger.Print (l : StdLogger) (v : List Value) (w : World) : World :=
  l.Output (Sprint v) w

/-! ## The logger -/

/-- Logger is a wrapper for `log.Logger` of the standard log package.  The
underlying logger is never nil: New always sets it, and the fields are not
exported. -/
structure Logger where
  /-- The underlying logger. -/
  logger : StdLogger
  /-- The desired logging level for the logger. -/
  level : Level
  /-- The suffix of log time: "UTC " if using UTC time, empty if using local time. -/
  timeSuffix : String
  deriving DecidableEq, Repr

/-- New creates a logger that writes messages of the logging level to the writer;
it returns nil (`none`) for a nil writer, for `Off` and for a level that matches
none of the standard logging levels. -/
def New (out : Option Writer) (level : Level) (useLocalTime : Bool) : Option Logger :=
  match out with
  | none => none
  | some o =>
    if level = Fine ∨ level = Debug ∨ level = Info ∨ level = Warn ∨ level = Error then
      let flag := LstdFlags ||| Lmicroseconds
      let flag := if !useLocalTime then flag ||| LUTC else flag
      let tz := if !useLocalTime then "UTC " else ""
      some { level := level, logger := StdLogger.New o "" flag, timeSuffix := tz }
    else if level = Off then none
    else none

/-- Log writes the specified message at the specified logging level to the output:
`if level == Off || l == nil || l.level > level { return }`, then `Print`. -/
def Logger.Log (Sprintf : Formatter) (l : Option Logger) (level : Level)
    (messageFormat : String) (messageArgs : List Value) (w : World) : Except Fault World :=
  if level = Off then .ok w
  else
    match l with
    | none => .ok w
    | some lg =>
      if lg.level > level then .ok w
      else
        .ok (lg.logger.Print
          [.str (lg.timeSuffix ++ label level), .str (Sprintf messageFormat messageArgs)] w)

/-- Fine writes the specified message at Fine level to the output. -/
def Logger.Fine (Sprintf : Formatter) (l : Option Logger)
    (messageFormat : String) (messageArgs : List Value) (w : World) : Except Fault World :=
  Logger.Log Sprintf l Logx.Fine messageFormat messageArgs w

/-- Debug writes the specified message at Debug level to the output. -/
def Logger.Debug (Sprintf : Formatter) (l : Option Logger)
    (messageFormat : String) (messageArgs : List Value) (w : World) : Except Fault World :=
  Logger.Log Sprintf l Logx.Debug messageFormat messageArgs w

/-- Info writes the specified message at Info level to the output. -/
def Logger.Info (Sprintf : Formatter) (l : Option Logger)
    (messageFormat : String) (messageArgs : List Value) (w : World) : Except Fault World :=
  Logger.Log Sprintf l Logx.Info messageFormat messageArgs w

/-- Warn writes the specified message at Warn level to the output. -/
def Logger.Warn (Sprintf : Formatter) (l : Option Logger)
    (messageFormat : String) (messageArgs : List Value) (w : World) : Except Fault World :=
  Logger.Log Sprintf l Logx.Warn messageFormat messageArgs w

/-- Error writes the specified message at Error level to the output. -/
def Logger.Error (Sprintf : Formatter) (l : Option Logger)
    (messageFormat : String) (messageArgs : List Value) (w : World) : Except Fault World :=
  Logger.Log Sprintf l Logx.Error messageFormat messageArgs w

/-- LogWithFn checks if the message at the specified logging level should be
logged; if so, it calls `fn` and writes the message returned by `fn`.  The
receiver is read (`l.level`) without a nil check, after `level == Off`. -/
def Logger.LogWithFn (l : Option Logger) (level : Level) (fn : Producer) (w : World) :
    Except Fault World :=
  if level = Off then .ok w
  else
    match l with
    | none => .error .nilDereference
    | some lg =>
      if lg.level > level then .ok w
      else
        match fn w with
        | .error e => .error e
        | .ok (s, w1) =>
          .ok (lg.logger.Print [.str (lg.timeSuffix ++ label level), .str s] w1)

/-- The call `TestLog` makes for a message level: the per-level method of a
standard level, `Log(Off, ...)` for `Off`, and no call for any other value
(the `switch msgLevel` of the test). -/
def perLevelCall (Sprintf : Formatter) (l : Option Logger) (msgLevel : Level)
    (messageFormat : String) (messageArgs : List Value) (w : World) : Except Fault World :=
  if msgLevel = Fine then Logger.Fine Sprintf l messageFormat messageArgs w
  else if msgLevel = Debug then Logger.Debug Sprintf l messageFormat messageArgs w
  else if msgLevel = Info then Logger.Info Sprintf l messageFormat messageArgs w
  else if msgLevel = Warn then Logger.Warn Sprintf l messageFormat messageArgs w
  else if msgLevel = Error then Logger.Error Sprintf l messageFormat messageArgs w
  else if msgLevel = Off then Logger.Log Sprintf l Off messageFormat messageArgs w
  else .ok w

/-- The line an admitted message is written as: the standard logger's line for
the time suffix, the level's label and the message text, in this order. -/
def Logger.entry (lg : Logger) (level : Level) (msg : String) (w : World) : String :=
  lg.logger.line (lg.timeSuffix ++ label level ++ msg) w

/-! ## Layout of an entry -/

/-- The timestamp of a header with the date, time and microsecond flags: the
date, one space, and the time of day with six digits of microseconds. -/
def stamp (c : Civil) : String :=
  itoa c.year 4 ++ "/" ++ itoa c.month 2 ++ "/" ++ itoa c.day 2 ++ " "
    ++ itoa c.hour 2 ++ ":" ++ itoa c.min 2 ++ ":" ++ itoa c.sec 2
    ++ "." ++ itoa (c.nsec / 1000) 6

/-- The newline `Logger.Output` adds after a text: none when the text already
ends in one. -/
def newlineAfter (s : String) : String :=
  if s.data.getLast? = some '\n' then "" else "\n"

/-- The line of the external format, as the specification words it: the
timestamp, one space, the timezone label, the severity tag, one space, the
formatted message, and a newline. -/
def specLine (c : Civil) (tz tag msg : String) : String :=
  stamp c ++ " " ++ tz ++ tag ++ " " ++ msg ++ "\n"

/-- The bytes of a word in upper case, for ASCII letters (`strings.ToUpper`). -/
def toUpperASCII (s : String) : String :=
  String.mk (s.data.map fun c =>
    if 'a' ≤ c ∧ c ≤ 'z' then Char.ofNat (c.toNat - 32) else c)

/-- The six named members of Level. -/
def namedLevels : List Level := [Fine, Debug, Info, Warn, Error, Off]

/-! ## Sample inputs -/

/-- A formatter that agrees with `fmt.Sprintf` on a format string without a
percent sign and with no arguments: the format itself. -/
def plainSprintf : Formatter := fun messageFormat _ => messageFormat

/-- A clock reading: 2024-03-05 12:34:56.789012345 local, one hour earlier in UTC. -/
def sampleTime : Time :=
  { loc := { year := 2024, month := 3, day := 5, hour := 12, min := 34, sec := 56,
             nsec := 789012345 },
    utc := { year := 2024, month := 3, day := 5, hour := 11, min := 34, sec := 56,
             nsec := 789012345 } }

/-- A world whose sinks are all empty. -/
def emptyWorld : World :=
  { sinks := fun _ => "", now := sampleTime, callerFile := "main.go", callerLine := 1,
    calls := 0 }

/-- A logger as New builds it for sink 0, threshold Debug and UTC time. -/
def sampleLogger : Logger :=
  { logger := StdLogger.New 0 "" (LstdFlags ||| Lmicroseconds ||| LUTC), level := Debug,
    timeSuffix := "UTC " }

/-! ## Auxiliary facts -/

theorem Sprint_two_str (a b : String) : Sprint [.str a, .str b] = a ++ b := by
  simp [Sprint, Value.default, Value.isString, String.ext_iff]

theorem line_ne_empty (l : StdLogger) (s : String) (w : World) : l.line s w ≠ "" := by
  intro h
  have hd := congrArg String.data h
  simp only [StdLogger.line, String.data_append] at hd
  by_cases hs : s.data.getLast? = some '\n'
  · have : s.data ≠ [] := by
      intro h0
      rw [h0] at hs
      simp at hs
    simp [hs] at hd
    exact this hd.2
  · simp [hs] at hd

theorem write_sinks_self (w : World) (o : Writer) (p : String) :
    (w.write o p).sinks o = w.sinks o ++ p := by
  simp [World.write]

theorem write_sinks_other (w : World) (o h : Writer) (p : String) (hne : h ≠ o) :
    (w.write o p).sinks h = w.sinks h := by
  simp [World.write, hne]

theorem write_changes_sink (w : World) (o : Writer) (p : String) (hp : p ≠ "") :
    (w.write o p).sinks o ≠ w.sinks o := by
  rw [write_sinks_self]
  intro h
  apply hp
  have hd := congrArg String.data h
  rw [String.data_append, List.append_right_eq_self] at hd
  exact String.ext_iff.mpr hd

theorem standard_ne_Off (M : Level) (hM : M ∈ ([Fine, Debug, Info, Warn, Error] : List Level)) :
    M ≠ Off := by
  simp at hM
  rcases hM with h | h | h | h | h <;> simp [h]

theorem New_standard (o : Writer) (L : Level) (useLocalTime : Bool)
    (hL : L ∈ ([Fine, Debug, Info, Warn, Error] : List Level)) :
    New (some o) L useLocalTime =
      some { level := L,
             logger := StdLogger.New o ""
               (if !useLocalTime then (LstdFlags ||| Lmicroseconds) ||| LUTC
                else LstdFlags ||| Lmicroseconds),
             timeSuffix := if !useLocalTime then "UTC " else "" } := by
  simp at hL
  simp [New, hL]

theorem Log_admitted (Sprintf : Formatter) (lg : Logger) (M : Level) (f : String)
    (args : List Value) (w : World) (hOff : M ≠ Off) (hge : lg.level ≤ M) :
    Logger.Log Sprintf (some lg) M f args w =
      .ok (w.write lg.logger.out (lg.entry M (Sprintf f args) w)) := by
  have : ¬ lg.level > M := not_lt.mpr hge
  simp [Logger.Log, hOff, this, StdLogger.Print, StdLogger.Output, Sprint_two_str,
    Logger.entry, String.append_assoc]

theorem Log_rejected (Sprintf : Formatter) (lg : Logger) (M : Level) (f : String)
    (args : List Value) (w : World) (h : M = Off ∨ M < lg.level) :
    Logger.Log Sprintf (some lg) M f args w = .ok w := by
  rcases h with h | h
  · simp [Logger.Log, h]
  · have : lg.level > M := h
    simp [Logger.Log, this]

theorem Log_nil (Sprintf : Formatter) (M : Level) (f : String) (args : List Value)
    (w : World) : Logger.Log Sprintf none M f args w = .ok w := by
  simp [Logger.Log]

theorem perLevelCall_standard (Sprintf : Formatter) (l : Option Logger) (M : Level)
    (f : String) (args : List Value) (w : World)
    (hM : M ∈ ([Fine, Debug, Info, Warn, Error] : List Level)) :
    perLevelCall Sprintf l M f args w = Logger.Log Sprintf l M f args w := by
  simp at hM
  rcases hM with h | h | h | h | h <;>
    simp [h, perLevelCall, Logger.Fine, Logger.Debug, Logger.Info, Logger.Warn, Logger.Error]

theorem New_nonstandard (out : Option Writer) (L : Level) (useLocalTime : Bool)
    (hL : L = Off ∨ L ∉ ([Fine, Debug, Info, Warn, Error] : List Level)) :
    New out L useLocalTime = none := by
  have hns : ¬ (L = Fine ∨ L = Debug ∨ L = Info ∨ L = Warn ∨ L = Error) := by
    rcases hL with h | h
    · simp [h]
    · simpa using h
  cases out with
  | none => rfl
  | some o => simp [New, hns]

theorem Contains_append_left (s t x : String) (h : Contains s x) : Contains (s ++ t) x := by
  unfold Contains at *
  rw [String.data_append]
  exact h.trans (List.prefix_append s.data t.data).isInfix

theorem Contains_append_right (s t x : String) (h : Contains t x) : Contains (s ++ t) x := by
  unfold Contains at *
  rw [String.data_append]
  exact h.trans (List.suffix_append s.data t.data).isInfix

theorem Contains_self (s : String) : Contains s s := List.infix_refl s.data

theorem Contains_line (l : StdLogger) (s x : String) (w : World) (h : Contains s x) :
    Contains (l.line s w) x := by
  unfold StdLogger.line
  exact Contains_append_left _ _ _ (Contains_append_right _ _ _ h)

theorem Contains_written (w : World) (o : Writer) (p x : String) (h : Contains p x) :
    Contains ((w.write o p).sinks o) x := by
  rw [write_sinks_self]
  exact Contains_append_right _ _ _ h

theorem LogWithFn_rejected (lg : Logger) (M : Level) (fn : Producer) (w : World)
    (h : M = Off ∨ M < lg.level) : Logger.LogWithFn (some lg) M fn w = .ok w := by
  rcases h with h | h
  · simp [Logger.LogWithFn, h]
  · have : lg.level > M := h
    simp [Logger.LogWithFn, this]

theorem LogWithFn_admitted (lg : Logger) (M : Level) (fn : Producer) (w w1 : World)
    (s : String) (hOff : M ≠ Off) (hge : lg.level ≤ M) (hfn : fn w = .ok (s, w1)) :
    Logger.LogWithFn (some lg) M fn w = .ok (w1.write lg.logger.out (lg.entry M s w1)) := by
  have : ¬ lg.level > M := not_lt.mpr hge
  simp [Logger.LogWithFn, hOff, this, hfn, StdLogger.Print, StdLogger.Output, Sprint_two_str,
    Logger.entry, String.append_assoc]

/-! ## Filtering and construction -/

/-- C1: a logger New returns for a non-nil sink and a standard threshold `T`
handles `Log(M, ...)` for a standard severity `M`, and the per-level call for
`M`, by returning normally; the sink is written to exactly when `T ≤ M`; the
bytes written are then one non-empty line, and when `M < T` the world after the
call is the world before it. -/
theorem C1_log_writes_iff_severity_reaches_threshold (Sprintf : Formatter) (o : Writer)
    (T M : Level) (useLocalTime : Bool) (f : String) (args : List Value) (w : World)
    (hT : T ∈ ([Fine, Debug, Info, Warn, Error] : List Level))
    (hM : M ∈ ([Fine, Debug, Info, Warn, Error] : List Level)) :
    ∃ lg w', New (some o) T useLocalTime = some lg ∧
      Logger.Log Sprintf (some lg) M f args w = .ok w' ∧
      perLevelCall Sprintf (some lg) M f args w = .ok w' ∧
      (w'.sinks o ≠ w.sinks o ↔ T ≤ M) ∧
      (T ≤ M → w' = w.write o (lg.entry M (Sprintf f args) w) ∧
        lg.entry M (Sprintf f args) w ≠ "") ∧
      (M < T → w' = w) := by
  have hnew := New_standard o T useLocalTime hT
  have hOff := standard_ne_Off M hM
  by_cases hge : T ≤ M
  · refine ⟨_, _, hnew, Log_admitted Sprintf _ M f args w hOff hge, ?_, ?_, ?_, ?_⟩
    · rw [perLevelCall_standard Sprintf _ M f args w hM]
      exact Log_admitted Sprintf _ M f args w hOff hge
    · constructor
      · intro _
        exact hge
      · intro _
        exact write_changes_sink w o _ (line_ne_empty _ _ _)
    · intro _
      exact ⟨rfl, line_ne_empty _ _ _⟩
    · intro hlt
      exact absurd hge (not_le.mpr hlt)
  · have hlt : M < T := not_le.mp hge
    refine ⟨_, _, hnew, Log_rejected Sprintf _ M f args w (Or.inr hlt), ?_, ?_, ?_, ?_⟩
    · rw [perLevelCall_standard Sprintf _ M f args w hM]
      exact Log_rejected Sprintf _ M f args w (Or.inr hlt)
    · constructor
      · intro h
        exact absurd rfl h
      · intro h
        exact absurd h hge
    · intro h
      exact absurd h hge
    · intro _
      rfl

/-- C1 at threshold Debug, severity Info, on the empty world. -/
theorem C1_log_writes_iff_severity_reaches_threshold_witness :
    Debug ∈ ([Fine, Debug, Info, Warn, Error] : List Level) ∧
    Info ∈ ([Fine, Debug, Info, Warn, Error] : List Level) ∧
    ∃ lg w', New (some 0) Debug false = some lg ∧
      Logger.Log plainSprintf (some lg) Info "hello" [] emptyWorld = .ok w' ∧
      perLevelCall plainSprintf (some lg) Info "hello" [] emptyWorld = .ok w' ∧
      (w'.sinks 0 ≠ emptyWorld.sinks 0 ↔ Debug ≤ Info) ∧
      (Debug ≤ Info → w' = emptyWorld.write 0 (lg.entry Info (plainSprintf "hello" []) emptyWorld) ∧
        lg.entry Info (plainSprintf "hello" []) emptyWorld ≠ "") ∧
      (Info < Debug → w' = emptyWorld) :=
  ⟨by decide, by decide,
    C1_log_writes_iff_severity_reaches_threshold plainSprintf 0 Debug Info false "hello" []
      emptyWorld (by decide) (by decide)⟩

/-- C2: for every sink, nil or not, every useLocalTime flag and every level that
is Off or is none of Fine, Debug, Info, Warn, Error, New returns nil. -/
theorem C2_new_nil_for_off_or_nonstandard_level (out : Option Writer) (L : Level)
    (useLocalTime : Bool)
    (hL : L = Off ∨ L ∉ ([Fine, Debug, Info, Warn, Error] : List Level)) :
    New out L useLocalTime = none :=
  New_nonstandard out L useLocalTime hL

/-- C2 at the level 51 (`Error + 1`) with a non-nil sink. -/
theorem C2_new_nil_for_off_or_nonstandard_level_witness :
    ((51 : Level) = Off ∨ (51 : Level) ∉ ([Fine, Debug, Info, Warn, Error] : List Level)) ∧
    New (some 0) 51 true = none :=
  ⟨by decide, C2_new_nil_for_off_or_nonstandard_level (some 0) 51 true (by decide)⟩

/-- C3: with a nil sink New returns nil for every level and every useLocalTime flag. -/
theorem C3_new_nil_for_nil_sink (level : Level) (useLocalTime : Bool) :
    New none level useLocalTime = none := by
  rfl

/-- C4: for a non-nil sink and a level among Fine, Debug, Info, Warn, Error, New
returns a logger whose level is that level, whose time suffix is "UTC " when
useLocalTime is false and empty when it is true, and whose underlying logger
writes to the sink. -/
theorem C4_new_stores_level_and_time_suffix (o : Writer) (L : Level) (useLocalTime : Bool)
    (hL : L ∈ ([Fine, Debug, Info, Warn, Error] : List Level)) :
    ∃ lg, New (some o) L useLocalTime = some lg ∧ lg.level = L ∧
      (useLocalTime = false → lg.timeSuffix = "UTC ") ∧
      (useLocalTime = true → lg.timeSuffix = "") ∧
      lg.logger.out = o := by
  refine ⟨_, New_standard o L useLocalTime hL, rfl, ?_, ?_, rfl⟩
  · intro h
    simp [h]
  · intro h
    simp [h]

/-- C4 at level Warn in UTC mode. -/
theorem C4_new_stores_level_and_time_suffix_witness :
    Warn ∈ ([Fine, Debug, Info, Warn, Error] : List Level) ∧
    ∃ lg, New (some 3) Warn false = some lg ∧ lg.level = Warn ∧
      (false = false → lg.timeSuffix = "UTC ") ∧
      (false = true → lg.timeSuffix = "") ∧
      lg.logger.out = 3 :=
  ⟨by decide, C4_new_stores_level_and_time_suffix 3 Warn false (by decide)⟩

/-- C5: New with a nil sink, with Off or with any other non-standard level
returns the nil logger; on it, and on the nil logger as such, Log at every
severity and each of Fine, Debug, Info, Warn and Error return normally and
leave the world, hence every sink, as it was. -/
theorem C5_calls_on_nil_logger_are_silent (Sprintf : Formatter) (out : Option Writer)
    (L : Level) (useLocalTime : Bool)
    (h : out = none ∨ L = Off ∨ L ∉ ([Fine, Debug, Info, Warn, Error] : List Level))
    (level : Level) (f : String) (args : List Value) (w : World) :
    New out L useLocalTime = none ∧
    (∀ l : Option Logger, l = New out L useLocalTime ∨ l = none →
      Logger.Log Sprintf l level f args w = .ok w ∧
      Logger.Fine Sprintf l f args w = .ok w ∧
      Logger.Debug Sprintf l f args w = .ok w ∧
      Logger.Info Sprintf l f args w = .ok w ∧
      Logger.Warn Sprintf l f args w = .ok w ∧
      Logger.Error Sprintf l f args w = .ok w) := by
  have hnil : New out L useLocalTime = none := by
    rcases h with h | h
    · rw [h]
      rfl
    · exact New_nonstandard out L useLocalTime h
  refine ⟨hnil, ?_⟩
  intro l hl
  have : l = none := by
    rcases hl with hl | hl
    · rw [hl, hnil]
    · exact hl
  subst this
  simp [Logger.Fine, Logger.Debug, Logger.Info, Logger.Warn, Logger.Error, Log_nil]

/-- C5 at the level 51 with a non-nil sink, logging at Info. -/
theorem C5_calls_on_nil_logger_are_silent_witness :
    ((some 0 : Option Writer) = none ∨ (51 : Level) = Off ∨
      (51 : Level) ∉ ([Fine, Debug, Info, Warn, Error] : List Level)) ∧
    New (some 0) 51 false = none ∧
    (∀ l : Option Logger, l = New (some 0) 51 false ∨ l = none →
      Logger.Log plainSprintf l Info "hello" [] emptyWorld = .ok emptyWorld ∧
      Logger.Fine plainSprintf l "hello" [] emptyWorld = .ok emptyWorld ∧
      Logger.Debug plainSprintf l "hello" [] emptyWorld = .ok emptyWorld ∧
      Logger.Info plainSprintf l "hello" [] emptyWorld = .ok emptyWorld ∧
      Logger.Warn plainSprintf l "hello" [] emptyWorld = .ok emptyWorld ∧
      Logger.Error plainSprintf l "hello" [] emptyWorld = .ok emptyWorld) :=
  ⟨by decide,
    C5_calls_on_nil_logger_are_silent plainSprintf (some 0) 51 false (by decide) Info "hello" []
      emptyWorld⟩

/-- C6: on every logger, nil or present with any threshold, `Log(Off, ...)`
returns normally and leaves the world as it was, although Off is numerically
above each of the five standard levels. -/
theorem C6_log_at_off_is_dropped (Sprintf : Formatter) (l : Option Logger) (f : String)
    (args : List Value) (w : World) :
    Logger.Log Sprintf l Off f args w = .ok w ∧
    Fine < Off ∧ Debug < Off ∧ Info < Off ∧ Warn < Off ∧ Error < Off := by
  refine ⟨?_, by decide, by decide, by decide, by decide, by decide⟩
  simp [Logger.Log]

/-- C7: on a present logger, `LogWithFn(M, fn)` with `M` equal to Off or below
the threshold returns normally with the world as it was, whatever `fn` is (also
one that would panic): `fn` is not invoked, a counting stub's count stays as it
was and no sink changes. -/
theorem C7_logWithFn_rejected_never_calls_producer (lg : Logger) (M : Level) (fn : Producer)
    (s : String) (w : World) (h : M = Off ∨ M < lg.level) :
    Logger.LogWithFn (some lg) M fn w = .ok w ∧
    Logger.LogWithFn (some lg) M (fun _ => .error .nilDereference) w = .ok w ∧
    ∃ w', Logger.LogWithFn (some lg) M (countingStub s) w = .ok w' ∧
      w'.calls = w.calls ∧ w'.sinks = w.sinks :=
  ⟨LogWithFn_rejected lg M fn w h, LogWithFn_rejected lg M _ w h,
    w, LogWithFn_rejected lg M _ w h, rfl, rfl⟩

/-- C7 on the sample logger (threshold Debug) at severity Fine. -/
theorem C7_logWithFn_rejected_never_calls_producer_witness :
    (Fine = Off ∨ Fine < sampleLogger.level) ∧
    Logger.LogWithFn (some sampleLogger) Fine (countingStub "costly") emptyWorld
      = .ok emptyWorld ∧
    Logger.LogWithFn (some sampleLogger) Fine (fun _ => .error .nilDereference) emptyWorld
      = .ok emptyWorld ∧
    ∃ w', Logger.LogWithFn (some sampleLogger) Fine (countingStub "costly") emptyWorld = .ok w' ∧
      w'.calls = emptyWorld.calls ∧ w'.sinks = emptyWorld.sinks :=
  ⟨by decide,
    C7_logWithFn_rejected_never_calls_producer sampleLogger Fine (countingStub "costly")
      "costly" emptyWorld (by decide)⟩

/-- C8: on a present logger LogWithFn rejects exactly when Log rejects (the
severity is Off or below the threshold), both then leaving the world as it was;
otherwise LogWithFn runs the producer once and writes the entry whose message
text is the producer's string as returned, which is what Log writes, in the
world the producer left, for a format and arguments that format to that string. -/
theorem C8_logWithFn_agrees_with_log (Sprintf : Formatter) (lg : Logger) (M : Level)
    (fn : Producer) (f : String) (args : List Value) (w w1 : World) (s : String)
    (hfn : fn w = .ok (s, w1)) (hfmt : Sprintf f args = s) :
    ((M = Off ∨ lg.level > M) →
      Logger.LogWithFn (some lg) M fn w = .ok w ∧
      Logger.Log Sprintf (some lg) M f args w = .ok w) ∧
    (¬ (M = Off ∨ lg.level > M) →
      Logger.LogWithFn (some lg) M fn w = .ok (w1.write lg.logger.out (lg.entry M s w1)) ∧
      Logger.Log Sprintf (some lg) M f args w1
        = .ok (w1.write lg.logger.out (lg.entry M s w1)) ∧
      Contains (lg.entry M s w1) s ∧
      ∃ w', Logger.LogWithFn (some lg) M (countingStub s) w = .ok w' ∧
        w'.calls = w.calls + 1) := by
  constructor
  · intro h
    exact ⟨LogWithFn_rejected lg M fn w h, Log_rejected Sprintf lg M f args w h⟩
  · intro h
    have hOff : M ≠ Off := fun e => h (Or.inl e)
    have hge : lg.level ≤ M := not_lt.mp (fun e => h (Or.inr e))
    refine ⟨LogWithFn_admitted lg M fn w w1 s hOff hge hfn, ?_, ?_, ?_⟩
    · rw [← hfmt]
      exact Log_admitted Sprintf lg M f args w1 hOff hge
    · exact Contains_line _ _ _ _ (Contains_append_right _ _ _ (Contains_self s))
    · exact ⟨_, LogWithFn_admitted lg M (countingStub s) w _ s hOff hge rfl, rfl⟩

/-- C8 on the sample logger at severity Info, with a producer returning "hello"
and the format "hello", which has no verb and formats to itself. -/
theorem C8_logWithFn_agrees_with_log_witness :
    countingStub "hello" emptyWorld = .ok ("hello", { emptyWorld with calls := 1 }) ∧
    plainSprintf "hello" [] = "hello" ∧
    ((Info = Off ∨ sampleLogger.level > Info) →
      Logger.LogWithFn (some sampleLogger) Info (countingStub "hello") emptyWorld
        = .ok emptyWorld ∧
      Logger.Log plainSprintf (some sampleLogger) Info "hello" [] emptyWorld
        = .ok emptyWorld) ∧
    (¬ (Info = Off ∨ sampleLogger.level > Info) →
      Logger.LogWithFn (some sampleLogger) Info (countingStub "hello") emptyWorld
        = .ok (World.write { emptyWorld with calls := 1 } sampleLogger.logger.out
            (sampleLogger.entry Info "hello" { emptyWorld with calls := 1 })) ∧
      Logger.Log plainSprintf (some sampleLogger) Info "hello" [] { emptyWorld with calls := 1 }
        = .ok (World.write { emptyWorld with calls := 1 } sampleLogger.logger.out
            (sampleLogger.entry Info "hello" { emptyWorld with calls := 1 })) ∧
      Contains (sampleLogger.entry Info "hello" { emptyWorld with calls := 1 }) "hello" ∧
      ∃ w', Logger.LogWithFn (some sampleLogger) Info (countingStub "hello") emptyWorld
          = .ok w' ∧
        w'.calls = emptyWorld.calls + 1) :=
  ⟨rfl, rfl,
    C8_logWithFn_agrees_with_log plainSprintf sampleLogger Info (countingStub "hello") "hello"
      [] emptyWorld { emptyWorld with calls := 1 } "hello" rfl rfl⟩

/-- C9: on every logger, nil or present, each of Fine, Debug, Info, Warn and
Error is Log with the matching level: the same outcome, world and fault alike. -/
theorem C9_per_level_calls_forward_to_log (Sprintf : Formatter) (l : Option Logger)
    (f : String) (args : List Value) (w : World) :
    Logger.Fine Sprintf l f args w = Logger.Log Sprintf l Fine f args w ∧
    Logger.Debug Sprintf l f args w = Logger.Log Sprintf l Debug f args w ∧
    Logger.Info Sprintf l f args w = Logger.Log Sprintf l Info f args w ∧
    Logger.Warn Sprintf l f args w = Logger.Log Sprintf l Warn f args w ∧
    Logger.Error Sprintf l f args w = Logger.Log Sprintf l Error f args w :=
  ⟨rfl, rfl, rfl, rfl, rfl⟩

/-- C10: a logger New builds with useLocalTime false writes, for an admitted
message of a standard severity `M`, one entry that contains "UTC " immediately
followed by `label M` and contains the formatted message text; so does the sink
after the call. -/
theorem C10_utc_entry_contains_suffix_label_and_message (Sprintf : Formatter) (o : Writer)
    (T M : Level) (f : String) (args : List Value) (w : World)
    (hT : T ∈ ([Fine, Debug, Info, Warn, Error] : List Level))
    (hM : M ∈ ([Fine, Debug, Info, Warn, Error] : List Level)) (hadm : T ≤ M) :
    ∃ lg w', New (some o) T false = some lg ∧
      Logger.Log Sprintf (some lg) M f args w = .ok w' ∧
      w' = w.write o (lg.entry M (Sprintf f args) w) ∧
      Contains (lg.entry M (Sprintf f args) w) ("UTC " ++ label M) ∧
      Contains (lg.entry M (Sprintf f args) w) (Sprintf f args) ∧
      Contains (w'.sinks o) ("UTC " ++ label M) ∧
      Contains (w'.sinks o) (Sprintf f args) := by
  have hnew := New_standard o T false hT
  have hOff := standard_ne_Off M hM
  refine ⟨_, _, hnew, Log_admitted Sprintf _ M f args w hOff hadm, rfl, ?_, ?_, ?_, ?_⟩
  · exact Contains_line _ _ _ _ (Contains_append_left _ _ _ (Contains_self _))
  · exact Contains_line _ _ _ _ (Contains_append_right _ _ _ (Contains_self _))
  · exact Contains_written w o _ _
      (Contains_line _ _ _ _ (Contains_append_left _ _ _ (Contains_self _)))
  · exact Contains_written w o _ _
      (Contains_line _ _ _ _ (Contains_append_right _ _ _ (Contains_self _)))

/-- C10 at threshold Debug and severity Info: the sink holds the one entry. -/
theorem C10_utc_entry_contains_suffix_label_and_message_witness :
    Debug ∈ ([Fine, Debug, Info, Warn, Error] : List Level) ∧
    Info ∈ ([Fine, Debug, Info, Warn, Error] : List Level) ∧ Debug ≤ Info ∧
    ∃ lg w', New (some 0) Debug false = some lg ∧
      Logger.Log plainSprintf (some lg) Info "hello world" [] emptyWorld = .ok w' ∧
      w' = emptyWorld.write 0 (lg.entry Info (plainSprintf "hello world" []) emptyWorld) ∧
      Contains (lg.entry Info (plainSprintf "hello world" []) emptyWorld)
        ("UTC " ++ label Info) ∧
      Contains (lg.entry Info (plainSprintf "hello world" []) emptyWorld)
        (plainSprintf "hello world" []) ∧
      Contains (w'.sinks 0) ("UTC " ++ label Info) ∧
      Contains (w'.sinks 0) (plainSprintf "hello world" []) :=
  ⟨by decide, by decide, by decide,
    C10_utc_entry_contains_suffix_label_and_message plainSprintf 0 Debug Info "hello world" []
      emptyWorld (by decide) (by decide) (by decide)⟩

/-! ## Facts about the layout of an entry -/

theorem flag_utc : (LstdFlags ||| Lmicroseconds) ||| LUTC = 39 := by decide

theorem flag_local : LstdFlags ||| Lmicroseconds = 7 := by decide

theorem formatHeader_utc (t : Time) (file : String) (line : Nat) :
    formatHeader t "" 39 file line = stamp t.utc ++ " " := by
  have h1 : hasFlag 39 Lmsgprefix = false := by decide
  have h2 : hasFlag 39 LUTC = true := by decide
  have h3 : hasFlag 39 Ldate = true := by decide
  have h4 : hasFlag 39 (Ltime ||| Lmicroseconds) = true := by decide
  have h5 : hasFlag 39 Lmicroseconds = true := by decide
  have h6 : hasFlag 39 (Ldate ||| Ltime ||| Lmicroseconds) = true := by decide
  have h7 : hasFlag 39 (Lshortfile ||| Llongfile) = false := by decide
  simp [formatHeader, h1, h2, h3, h4, h5, h6, h7, stamp, Time.UTC, String.ext_iff]

theorem formatHeader_local (t : Time) (file : String) (line : Nat) :
    formatHeader t "" 7 file line = stamp t.loc ++ " " := by
  have h1 : hasFlag 7 Lmsgprefix = false := by decide
  have h2 : hasFlag 7 LUTC = false := by decide
  have h3 : hasFlag 7 Ldate = true := by decide
  have h4 : hasFlag 7 (Ltime ||| Lmicroseconds) = true := by decide
  have h5 : hasFlag 7 Lmicroseconds = true := by decide
  have h6 : hasFlag 7 (Ldate ||| Ltime ||| Lmicroseconds) = true := by decide
  have h7 : hasFlag 7 (Lshortfile ||| Llongfile) = false := by decide
  simp [formatHeader, h1, h2, h3, h4, h5, h6, h7, stamp, String.ext_iff]

theorem digitChar_ne_U (n : Nat) : Nat.digitChar (n % 10) ≠ 'U' := by
  have h : ∀ k, k < 10 → Nat.digitChar k ≠ 'U' := by decide
  exact h _ (Nat.mod_lt n (by decide))

theorem toDigitsCore_no_U (fuel : Nat) : ∀ (n : Nat) (acc : List Char),
    'U' ∉ acc → 'U' ∉ Nat.toDigitsCore 10 fuel n acc := by
  induction fuel with
  | zero =>
    intro n acc h
    simpa [Nat.toDigitsCore] using h
  | succ k ih =>
    intro n acc h
    have hacc : 'U' ∉ Nat.digitChar (n % 10) :: acc := by
      intro hm
      rcases List.mem_cons.mp hm with e | e
      · exact digitChar_ne_U _ e.symm
      · exact h e
    simp only [Nat.toDigitsCore]
    split_ifs
    · exact hacc
    · exact ih _ _ hacc

theorem itoa_no_U (i wid : Nat) : 'U' ∉ (itoa i wid).data := by
  unfold itoa
  simp only [List.mem_append, not_or]
  constructor
  · intro h
    have := List.eq_of_mem_replicate h
    exact absurd this (by decide)
  · exact toDigitsCore_no_U _ _ _ (by simp)

theorem stamp_no_U (c : Civil) : 'U' ∉ (stamp c ++ " ").data := by
  have h := itoa_no_U
  simp [stamp, String.data_append, h]

theorem infix_skip {c : Char} {r : List Char} : ∀ (pre m : List Char),
    c ∉ pre → (c :: r) <:+: pre ++ m → (c :: r) <:+: m := by
  intro pre
  induction pre with
  | nil =>
    intro m _ h
    simpa using h
  | cons p ps ih =>
    intro m hc h
    have hp : c ≠ p := fun e => hc (e ▸ List.mem_cons_self _ _)
    have hps : c ∉ ps := fun e => hc (List.mem_cons_of_mem _ e)
    rw [List.cons_append, List.infix_cons_iff] at h
    rcases h with h | h
    · exact absurd (List.cons_prefix_cons.mp h).1 hp
    · exact ih m hps h

theorem infix_drop_last {d : Char} {needle : List Char} (m : List Char)
    (hd : d ∉ needle) (h : needle <:+: m ++ [d]) : needle <:+: m := by
  rw [← List.reverse_infix] at h ⊢
  rw [List.reverse_append, List.reverse_singleton, List.singleton_append,
    List.infix_cons_iff] at h
  rcases h with h | h
  · cases hr : needle.reverse with
    | nil =>
      exact List.nil_infix
    | cons a as =>
      rw [hr] at h
      have ha : a = d := (List.cons_prefix_cons.mp h).1
      have : a ∈ needle := by
        have : a ∈ needle.reverse := by rw [hr]; exact List.mem_cons_self _ _
        exact List.mem_reverse.mp this
      exact absurd (ha ▸ this) hd
  · exact h

theorem label_skip (M : Level) (rest : List Char)
    (h : "UTC ".data <:+: (label M).data ++ rest) : "UTC ".data <:+: rest := by
  unfold label at h
  split_ifs at h <;>
    simpa [List.infix_cons_iff, List.cons_prefix_cons] using h

theorem New_fields (out : Option Writer) (L : Level) (useLocalTime : Bool) (lg : Logger)
    (h : New out L useLocalTime = some lg) :
    ∃ o, out = some o ∧ L ∈ ([Fine, Debug, Info, Warn, Error] : List Level) ∧
      lg = { level := L,
             logger := StdLogger.New o "" (if useLocalTime then 7 else 39),
             timeSuffix := if useLocalTime then "" else "UTC " } := by
  cases out with
  | none => simp [New] at h
  | some o =>
    by_cases hL : L ∈ ([Fine, Debug, Info, Warn, Error] : List Level)
    · refine ⟨o, rfl, hL, ?_⟩
      rw [New_standard o L useLocalTime hL] at h
      have h2 := (Option.some.inj h).symm
      rw [h2]
      cases useLocalTime <;> rfl
    · rw [New_nonstandard (some o) L useLocalTime (Or.inr hL)] at h
      simp at h

theorem newlineAfter_tagged (tz : String) (M : Level) (msg : String)
    (htz : tz = "" ∨ tz = "UTC ") :
    newlineAfter (tz ++ label M ++ msg) = newlineAfter msg := by
  have hlast : (tz ++ label M).data.getLast? ≠ some '\n' := by
    unfold label
    rcases htz with h | h <;> subst h <;> split_ifs <;> decide
  unfold newlineAfter
  rw [String.data_append, List.getLast?_append]
  cases hm : msg.data.getLast? with
  | none =>
    rw [Option.none_or, if_neg hlast]
    simp
  | some c => simp

theorem entry_layout (out : Option Writer) (L : Level) (useLocalTime : Bool) (lg : Logger)
    (h : New out L useLocalTime = some lg) (M : Level) (msg : String) (w : World) :
    lg.entry M msg w =
      stamp (if useLocalTime then w.now.loc else w.now.utc) ++ " "
        ++ (if useLocalTime then "" else "UTC ") ++ label M ++ msg ++ newlineAfter msg := by
  obtain ⟨o, _, _, hlg⟩ := New_fields out L useLocalTime lg h
  subst hlg
  have hnl := newlineAfter_tagged (if useLocalTime then "" else "UTC ") M msg
    (by cases useLocalTime <;> simp)
  unfold newlineAfter at hnl
  cases useLocalTime
  · simp only [Logger.entry, StdLogger.line, StdLogger.New, Bool.false_eq_true, if_false,
      formatHeader_utc] at hnl ⊢
    rw [hnl]
    simp [newlineAfter, String.ext_iff]
  · simp only [Logger.entry, StdLogger.line, StdLogger.New, if_true, formatHeader_local]
      at hnl ⊢
    rw [hnl]
    simp [newlineAfter, String.ext_iff]

theorem entry_local_contains_UTC (out : Option Writer) (L : Level) (lg : Logger)
    (h : New out L true = some lg) (M : Level) (msg : String) (w : World) :
    Contains (lg.entry M msg w) "UTC " ↔ Contains msg "UTC " := by
  constructor
  · intro hc
    rw [entry_layout out L true lg h M msg w] at hc
    unfold Contains at hc ⊢
    simp only [if_true, String.data_append, List.append_assoc] at hc
    have h1 := infix_skip (stamp w.now.loc ++ " ").data _
      (stamp_no_U w.now.loc) (by simpa [String.data_append] using hc)
    have h2 : "UTC ".data <:+: (label M).data ++ (msg.data ++ (newlineAfter msg).data) := by
      simpa using h1
    have h3 := label_skip M _ h2
    unfold newlineAfter at h3
    split_ifs at h3
    · simpa using h3
    · exact infix_drop_last msg.data (by decide) h3
  · intro hc
    unfold Logger.entry
    exact Contains_line _ _ _ _ (Contains_append_right _ _ _ hc)

/-! ## The written line -/

/-- C11 (as amended): a logger New builds with useLocalTime true has an empty
time suffix; for an admitted message the line written is the local timestamp, one
space, the label, the message text and the newline, and it contains "UTC "
exactly when the formatted message text contains it. -/
theorem C11_local_entry_has_UTC_only_from_message (Sprintf : Formatter) (o : Writer)
    (T M : Level) (f : String) (args : List Value) (w : World)
    (hT : T ∈ ([Fine, Debug, Info, Warn, Error] : List Level))
    (hOff : M ≠ Off) (hadm : T ≤ M) :
    ∃ lg w', New (some o) T true = some lg ∧
      Logger.Log Sprintf (some lg) M f args w = .ok w' ∧
      w' = w.write o (lg.entry M (Sprintf f args) w) ∧
      lg.timeSuffix = "" ∧
      lg.entry M (Sprintf f args) w =
        stamp w.now.loc ++ " " ++ label M ++ Sprintf f args ++ newlineAfter (Sprintf f args) ∧
      (Contains (lg.entry M (Sprintf f args) w) "UTC " ↔ Contains (Sprintf f args) "UTC ") := by
  have hnew := New_standard o T true hT
  refine ⟨_, _, hnew, Log_admitted Sprintf _ M f args w hOff hadm, rfl, rfl, ?_, ?_⟩
  · rw [entry_layout (some o) T true _ hnew M (Sprintf f args) w]
    simp [String.ext_iff]
  · exact entry_local_contains_UTC (some o) T _ hnew M (Sprintf f args) w

/-- C11 at threshold Debug and severity Info in local time. -/
theorem C11_local_entry_has_UTC_only_from_message_witness :
    Debug ∈ ([Fine, Debug, Info, Warn, Error] : List Level) ∧ Info ≠ Off ∧ Debug ≤ Info ∧
    ∃ lg w', New (some 0) Debug true = some lg ∧
      Logger.Log plainSprintf (some lg) Info "hello" [] emptyWorld = .ok w' ∧
      w' = emptyWorld.write 0 (lg.entry Info (plainSprintf "hello" []) emptyWorld) ∧
      lg.timeSuffix = "" ∧
      lg.entry Info (plainSprintf "hello" []) emptyWorld =
        stamp emptyWorld.now.loc ++ " " ++ label Info ++ plainSprintf "hello" []
          ++ newlineAfter (plainSprintf "hello" []) ∧
      (Contains (lg.entry Info (plainSprintf "hello" []) emptyWorld) "UTC " ↔
        Contains (plainSprintf "hello" []) "UTC ") :=
  ⟨by decide, by decide, by decide,
    C11_local_entry_has_UTC_only_from_message plainSprintf 0 Debug Info "hello" [] emptyWorld
      (by decide) (by decide) (by decide)⟩

/-- C11 fails as stated: a logger built with useLocalTime true admits the
message "UTC time" at Info and the line it writes contains "UTC ". -/
theorem C11_counterexample :
    ∃ lg w', New (some 0) Debug true = some lg ∧
      Logger.Log plainSprintf (some lg) Info "UTC time" [] emptyWorld = .ok w' ∧
      w'.sinks 0 = "2024/03/05 12:34:56.789012 [INFO]  UTC time\n" ∧
      Contains (w'.sinks 0) "UTC " := by
  refine ⟨_, _, New_standard 0 Debug true (by decide),
    Log_admitted plainSprintf _ Info "UTC time" [] emptyWorld (by decide) (by decide), ?_, ?_⟩
  · rfl
  · exact Contains_written emptyWorld 0 _ _
      (Contains_line _ _ _ _ (Contains_append_right _ _ _ (by decide)))

theorem entry_ne_specLine (c : Civil) (tz tag msg : String) :
    stamp c ++ " " ++ tz ++ tag ++ msg ++ newlineAfter msg ≠ specLine c tz tag msg := by
  intro heq
  have hlen := congrArg String.length heq
  unfold specLine newlineAfter at hlen
  simp only [String.length_append] at hlen
  split_ifs at hlen
  · have h0 : ("" : String).length = 0 := rfl
    have h1 : (" " : String).length = 1 := rfl
    have h2 : ("\n" : String).length = 1 := rfl
    omega
  · have h1 : (" " : String).length = 1 := rfl
    have h2 : ("\n" : String).length = 1 := rfl
    omega

/-- C12 (as amended): the bytes Log writes for an admitted message are the
timestamp (date, one space, time with microseconds), one space, the timezone
label ("UTC " or empty), the severity tag, then directly the formatted message,
and a newline unless the message already ends in one; no further space stands
between the tag and the message, so the line is never the one of the external
format with its additional space. -/
theorem C12_entry_layout_has_no_additional_space (Sprintf : Formatter) (o : Writer)
    (T M : Level) (useLocalTime : Bool) (f : String) (args : List Value) (w : World)
    (hT : T ∈ ([Fine, Debug, Info, Warn, Error] : List Level))
    (hOff : M ≠ Off) (hadm : T ≤ M) :
    ∃ lg w', New (some o) T useLocalTime = some lg ∧
      Logger.Log Sprintf (some lg) M f args w = .ok w' ∧
      w'.sinks o = w.sinks o ++ lg.entry M (Sprintf f args) w ∧
      lg.timeSuffix = (if useLocalTime then "" else "UTC ") ∧
      lg.entry M (Sprintf f args) w =
        stamp (if useLocalTime then w.now.loc else w.now.utc) ++ " " ++ lg.timeSuffix
          ++ label M ++ Sprintf f args ++ newlineAfter (Sprintf f args) ∧
      lg.entry M (Sprintf f args) w ≠
        specLine (if useLocalTime then w.now.loc else w.now.utc) lg.timeSuffix (label M)
          (Sprintf f args) := by
  have hnew := New_standard o T useLocalTime hT
  have hlay := entry_layout (some o) T useLocalTime _ hnew M (Sprintf f args) w
  have hts : (if !useLocalTime then "UTC " else "") = (if useLocalTime then "" else "UTC ") := by
    cases useLocalTime <;> rfl
  refine ⟨_, _, hnew, Log_admitted Sprintf _ M f args w hOff hadm, ?_, hts, ?_, ?_⟩
  · exact write_sinks_self w o _
  · rw [hlay]
    cases useLocalTime <;> rfl
  · rw [hlay]
    have hne := entry_ne_specLine (if useLocalTime then w.now.loc else w.now.utc)
      (if useLocalTime then "" else "UTC ") (label M) (Sprintf f args)
    cases useLocalTime <;> exact hne

/-- C12 at threshold Debug and severity Info in UTC. -/
theorem C12_entry_layout_has_no_additional_space_witness :
    Debug ∈ ([Fine, Debug, Info, Warn, Error] : List Level) ∧ Info ≠ Off ∧ Debug ≤ Info ∧
    ∃ lg w', New (some 0) Debug false = some lg ∧
      Logger.Log plainSprintf (some lg) Info "hello" [] emptyWorld = .ok w' ∧
      w'.sinks 0 = emptyWorld.sinks 0 ++ lg.entry Info (plainSprintf "hello" []) emptyWorld ∧
      lg.timeSuffix = (if false then "" else "UTC ") ∧
      lg.entry Info (plainSprintf "hello" []) emptyWorld =
        stamp (if false then emptyWorld.now.loc else emptyWorld.now.utc) ++ " "
          ++ lg.timeSuffix ++ label Info ++ plainSprintf "hello" []
          ++ newlineAfter (plainSprintf "hello" []) ∧
      lg.entry Info (plainSprintf "hello" []) emptyWorld ≠
        specLine (if false then emptyWorld.now.loc else emptyWorld.now.utc) lg.timeSuffix
          (label Info) (plainSprintf "hello" []) :=
  ⟨by decide, by decide, by decide,
    C12_entry_layout_has_no_additional_space plainSprintf 0 Debug Info false "hello" []
      emptyWorld (by decide) (by decide) (by decide)⟩

/-- C12 fails as stated: for "hello" at Info the line written ends the tag
"[INFO]  " directly with the message, while the external format asks for one
more space. -/
theorem C12_counterexample :
    ∃ lg w', New (some 0) Debug false = some lg ∧
      Logger.Log plainSprintf (some lg) Info "hello" [] emptyWorld = .ok w' ∧
      w'.sinks 0 = "2024/03/05 11:34:56.789012 UTC [INFO]  hello\n" ∧
      specLine sampleTime.utc "UTC " (label Info) "hello"
        = "2024/03/05 11:34:56.789012 UTC [INFO]   hello\n" ∧
      w'.sinks 0 ≠ specLine sampleTime.utc "UTC " (label Info) "hello" := by
  refine ⟨_, _, New_standard 0 Debug false (by decide),
    Log_admitted plainSprintf _ Info "hello" [] emptyWorld (by decide) (by decide), ?_, ?_, ?_⟩
  · rfl
  · decide
  · decide

/-- C13 (as amended): for a logger New builds with threshold `L` and every
severity `M` other than Off, a message logged at `M` is written to the sink when
`L ≤ M` and is not written when `M < L`; a message logged at Off is not written. -/
theorem C13_threshold_enables_levels_from_it_up_except_off (Sprintf : Formatter) (o : Writer)
    (L M : Level) (useLocalTime : Bool) (f : String) (args : List Value) (w : World)
    (hL : L ∈ ([Fine, Debug, Info, Warn, Error] : List Level)) (hOff : M ≠ Off) :
    ∃ lg, New (some o) L useLocalTime = some lg ∧
      (L ≤ M → Logger.Log Sprintf (some lg) M f args w
          = .ok (w.write o (lg.entry M (Sprintf f args) w)) ∧
        (w.write o (lg.entry M (Sprintf f args) w)).sinks o ≠ w.sinks o) ∧
      (M < L → Logger.Log Sprintf (some lg) M f args w = .ok w) ∧
      Logger.Log Sprintf (some lg) Off f args w = .ok w := by
  refine ⟨_, New_standard o L useLocalTime hL, ?_, ?_, ?_⟩
  · intro hge
    exact ⟨Log_admitted Sprintf _ M f args w hOff hge,
      write_changes_sink w o _ (line_ne_empty _ _ _)⟩
  · intro hlt
    exact Log_rejected Sprintf _ M f args w (Or.inr hlt)
  · exact Log_rejected Sprintf _ Off f args w (Or.inl rfl)

/-- C13 at threshold Debug and the unnamed severity 35. -/
theorem C13_threshold_enables_levels_from_it_up_except_off_witness :
    Debug ∈ ([Fine, Debug, Info, Warn, Error] : List Level) ∧ (35 : Level) ≠ Off ∧
    ∃ lg, New (some 0) Debug false = some lg ∧
      (Debug ≤ 35 → Logger.Log plainSprintf (some lg) 35 "hello" [] emptyWorld
          = .ok (emptyWorld.write 0 (lg.entry 35 (plainSprintf "hello" []) emptyWorld)) ∧
        (emptyWorld.write 0 (lg.entry 35 (plainSprintf "hello" []) emptyWorld)).sinks 0
          ≠ emptyWorld.sinks 0) ∧
      ((35 : Level) < Debug → Logger.Log plainSprintf (some lg) 35 "hello" [] emptyWorld
          = .ok emptyWorld) ∧
      Logger.Log plainSprintf (some lg) Off "hello" [] emptyWorld = .ok emptyWorld :=
  ⟨by decide, by decide,
    C13_threshold_enables_levels_from_it_up_except_off plainSprintf 0 Debug 35 false "hello" []
      emptyWorld (by decide) (by decide)⟩

/-- C13 fails as stated: Off is a Level value at least as large as the threshold
Fine, and a message logged at Off leaves the sink as it was. -/
theorem C13_counterexample :
    ∃ lg, New (some 0) Fine false = some lg ∧ Fine ≤ Off ∧
      Logger.Log plainSprintf (some lg) Off "hello" [] emptyWorld = .ok emptyWorld ∧
      emptyWorld.sinks 0 = "" :=
  ⟨_, New_standard 0 Fine false (by decide), by decide,
    Log_rejected plainSprintf _ Off "hello" [] emptyWorld (Or.inl rfl), rfl⟩

/-! ## Names and labels -/

/-- C14: Level.String is "Fine" for 10, "Debug" for 20, "Info" for 30, "Warn"
for 40, "Error" for 50 and "Off" for 99; the name of a value is "Unknown"
exactly when the value is none of these six; the six names are pairwise
distinct. -/
theorem C14_level_string_names (L : Level) :
    Level.String 10 = "Fine" ∧ Level.String 20 = "Debug" ∧ Level.String 30 = "Info" ∧
    Level.String 40 = "Warn" ∧ Level.String 50 = "Error" ∧ Level.String 99 = "Off" ∧
    (Level.String L = "Unknown" ↔ L ∉ namedLevels) ∧
    (namedLevels.map Level.String).Nodup := by
  refine ⟨by decide, by decide, by decide, by decide, by decide, by decide, ?_, by decide⟩
  unfold Level.String namedLevels
  split_ifs with h1 h2 h3 h4 h5 h6 <;> simp_all

/-- C15: on each of Fine, Debug, Info, Warn and Error the label is "[", the
upper-cased name of the level, "]" and spaces up to the width 8; on every other
value, Off included, it is the empty string. -/
theorem C15_label_fixed_width_on_standard_levels (L : Level) :
    label Fine = "[FINE]  " ∧ label Debug = "[DEBUG] " ∧ label Info = "[INFO]  " ∧
    label Warn = "[WARN]  " ∧ label Error = "[ERROR] " ∧ label Off = "" ∧
    label L =
      (if L ∈ ([Fine, Debug, Info, Warn, Error] : List Level) then
        "[" ++ toUpperASCII (Level.String L) ++ "]"
          ++ String.mk (List.replicate (6 - (Level.String L).length) ' ')
       else "") ∧
    (label L).length = (if L ∈ ([Fine, Debug, Info, Warn, Error] : List Level) then 8 else 0) := by
  refine ⟨by decide, by decide, by decide, by decide, by decide, by decide, ?_, ?_⟩
  · by_cases h : L ∈ ([Fine, Debug, Info, Warn, Error] : List Level)
    · rw [if_pos h]
      simp only [List.mem_cons, List.mem_singleton, List.not_mem_nil, or_false] at h
      rcases h with h | h | h | h | h <;> subst h <;> decide
    · rw [if_neg h]
      simp only [List.mem_cons, List.mem_singleton, List.not_mem_nil, or_false, not_or] at h
      simp [label, h]
  · unfold label
    split_ifs <;> simp_all <;> decide

/-! ## Flags, nil receivers and unnamed severities -/

/-- C16: for every logger New returns, the flags of the underlying logger hold
the date, time and microsecond flags, and hold the UTC flag exactly when the time
suffix is "UTC ", which is exactly when useLocalTime was false; the header is the
timestamp of the UTC reading in the one case and of the local reading in the
other. -/
theorem C16_flags_agree_with_time_suffix (out : Option Writer) (L : Level)
    (useLocalTime : Bool) (lg : Logger) (h : New out L useLocalTime = some lg)
    (t : Time) (file : String) (line : Nat) :
    hasFlag lg.logger.flag Ldate = true ∧
    hasFlag lg.logger.flag Ltime = true ∧
    hasFlag lg.logger.flag Lmicroseconds = true ∧
    (hasFlag lg.logger.flag LUTC = true ↔ lg.timeSuffix = "UTC ") ∧
    (lg.timeSuffix = "UTC " ↔ useLocalTime = false) ∧
    formatHeader t lg.logger.pfx lg.logger.flag file line =
      stamp (if lg.timeSuffix = "UTC " then t.utc else t.loc) ++ " " := by
  obtain ⟨o, _, _, hlg⟩ := New_fields out L useLocalTime lg h
  subst hlg
  cases useLocalTime
  · refine ⟨?_, ?_, ?_, ?_, ?_, ?_⟩
    · show hasFlag 39 Ldate = true
      decide
    · show hasFlag 39 Ltime = true
      decide
    · show hasFlag 39 Lmicroseconds = true
      decide
    · show (hasFlag 39 LUTC = true ↔ "UTC " = "UTC ")
      decide
    · show ("UTC " = "UTC " ↔ false = false)
      decide
    · exact formatHeader_utc t file line
  · refine ⟨?_, ?_, ?_, ?_, ?_, ?_⟩
    · show hasFlag 7 Ldate = true
      decide
    · show hasFlag 7 Ltime = true
      decide
    · show hasFlag 7 Lmicroseconds = true
      decide
    · show (hasFlag 7 LUTC = true ↔ "" = "UTC ")
      decide
    · show ("" = "UTC " ↔ true = false)
      decide
    · exact formatHeader_local t file line

/-- C16 at the logger New builds for sink 0, level Info and local time. -/
theorem C16_flags_agree_with_time_suffix_witness :
    New (some 0) Info true
      = some { logger := StdLogger.New 0 "" 7, level := Info, timeSuffix := "" } ∧
    hasFlag (StdLogger.New 0 "" 7).flag Ldate = true ∧
    hasFlag (StdLogger.New 0 "" 7).flag Ltime = true ∧
    hasFlag (StdLogger.New 0 "" 7).flag Lmicroseconds = true ∧
    (hasFlag (StdLogger.New 0 "" 7).flag LUTC = true ↔ ("" : String) = "UTC ") ∧
    (("" : String) = "UTC " ↔ true = false) ∧
    formatHeader sampleTime (StdLogger.New 0 "" 7).pfx (StdLogger.New 0 "" 7).flag "main.go" 1 =
      stamp (if ("" : String) = "UTC " then sampleTime.utc else sampleTime.loc) ++ " " :=
  ⟨by decide,
    C16_flags_agree_with_time_suffix (some 0) Info true
      { logger := StdLogger.New 0 "" 7, level := Info, timeSuffix := "" } (by decide)
      sampleTime "main.go" 1⟩

/-- C17: on the nil logger `LogWithFn(Off, fn)` returns normally with the world
as it was; for every other severity it panics on the nil dereference, whatever
`fn` is (the panic is not the one `fn` would raise: `fn` is not invoked), while
Log at the same severity returns normally with the world as it was. -/
theorem C17_logWithFn_faults_on_nil_logger (Sprintf : Formatter) (M : Level) (fn : Producer)
    (f : String) (args : List Value) (w : World) (hM : M ≠ Off) :
    Logger.LogWithFn none Off fn w = .ok w ∧
    Logger.LogWithFn none M fn w = .error .nilDereference ∧
    Logger.LogWithFn none M (fun _ => .error (.raised "producer called")) w
      = .error .nilDereference ∧
    Logger.Log Sprintf none M f args w = .ok w := by
  refine ⟨?_, ?_, ?_, Log_nil Sprintf M f args w⟩
  · simp [Logger.LogWithFn]
  · simp [Logger.LogWithFn, hM]
  · simp [Logger.LogWithFn, hM]

/-- C17 at severity Info with a counting producer. -/
theorem C17_logWithFn_faults_on_nil_logger_witness :
    Info ≠ Off ∧
    Logger.LogWithFn none Off (countingStub "costly") emptyWorld = .ok emptyWorld ∧
    Logger.LogWithFn none Info (countingStub "costly") emptyWorld = .error .nilDereference ∧
    Logger.LogWithFn none Info (fun _ => .error (.raised "producer called")) emptyWorld
      = .error .nilDereference ∧
    Logger.Log plainSprintf none Info "hello" [] emptyWorld = .ok emptyWorld :=
  ⟨by decide,
    C17_logWithFn_faults_on_nil_logger plainSprintf Info (countingStub "costly") "hello" []
      emptyWorld (by decide)⟩

theorem label_unnamed (M : Level) (hM : M ∉ namedLevels) : label M = "" := by
  simp only [namedLevels, List.mem_cons, List.mem_singleton, List.not_mem_nil, or_false,
    not_or] at hM
  simp [label, hM]

theorem entry_unnamed (lg : Logger) (M : Level) (msg : String) (w : World)
    (hM : M ∉ namedLevels) : lg.entry M msg w = lg.logger.line (lg.timeSuffix ++ msg) w := by
  unfold Logger.entry
  rw [label_unnamed M hM]
  congr 1
  simp [String.ext_iff]

/-- C18: a severity that is none of the six named levels has the empty label,
and on a present logger Log and LogWithFn filter it by the threshold alone: at
or above the threshold each writes one non-empty line in which the time suffix
is directly followed by the message text, below it each leaves the world as it
was; so a logger New builds writes a message of severity 100 although it drops
one of severity Off. -/
theorem C18_unnamed_severities_pass_by_threshold_alone (Sprintf : Formatter) (lg : Logger)
    (M : Level) (fn : Producer) (f : String) (args : List Value) (w w1 : World) (s : String)
    (o : Writer) (T : Level) (useLocalTime : Bool)
    (hM : M ∉ namedLevels) (hfn : fn w = .ok (s, w1))
    (hT : T ∈ ([Fine, Debug, Info, Warn, Error] : List Level)) :
    label M = "" ∧
    (lg.level ≤ M →
      Logger.Log Sprintf (some lg) M f args w
        = .ok (w.write lg.logger.out (lg.logger.line (lg.timeSuffix ++ Sprintf f args) w)) ∧
      Logger.LogWithFn (some lg) M fn w
        = .ok (w1.write lg.logger.out (lg.logger.line (lg.timeSuffix ++ s) w1)) ∧
      lg.logger.line (lg.timeSuffix ++ Sprintf f args) w ≠ "" ∧
      lg.logger.line (lg.timeSuffix ++ s) w1 ≠ "") ∧
    (M < lg.level →
      Logger.Log Sprintf (some lg) M f args w = .ok w ∧
      Logger.LogWithFn (some lg) M fn w = .ok w) ∧
    (∃ w', Logger.Log Sprintf (some lg) M f args w = .ok w' ∧
      (w'.sinks lg.logger.out ≠ w.sinks lg.logger.out ↔ lg.level ≤ M)) ∧
    (∃ lg', New (some o) T useLocalTime = some lg' ∧
      Logger.Log Sprintf (some lg') 100 f args w
        = .ok (w.write o (lg'.logger.line (lg'.timeSuffix ++ Sprintf f args) w)) ∧
      Logger.Log Sprintf (some lg') Off f args w = .ok w) := by
  have hOff : M ≠ Off := by
    intro e
    apply hM
    rw [e]
    decide
  refine ⟨label_unnamed M hM, ?_, ?_, ?_, ?_⟩
  · intro hge
    refine ⟨?_, ?_, line_ne_empty _ _ _, line_ne_empty _ _ _⟩
    · rw [Log_admitted Sprintf lg M f args w hOff hge, entry_unnamed lg M _ w hM]
    · rw [LogWithFn_admitted lg M fn w w1 s hOff hge hfn, entry_unnamed lg M _ w1 hM]
  · intro hlt
    exact ⟨Log_rejected Sprintf lg M f args w (Or.inr hlt),
      LogWithFn_rejected lg M fn w (Or.inr hlt)⟩
  · by_cases hge : lg.level ≤ M
    · refine ⟨_, Log_admitted Sprintf lg M f args w hOff hge, ?_⟩
      constructor
      · intro _
        exact hge
      · intro _
        exact write_changes_sink w _ _ (line_ne_empty _ _ _)
    · refine ⟨_, Log_rejected Sprintf lg M f args w (Or.inr (not_le.mp hge)), ?_⟩
      constructor
      · intro h
        exact absurd rfl h
      · intro h
        exact absurd h hge
  · have hnew := New_standard o T useLocalTime hT
    have h100 : (100 : Level) ∉ namedLevels := by decide
    have hT100 : T ≤ 100 := by
      simp only [List.mem_cons, List.mem_singleton, List.not_mem_nil, or_false] at hT
      rcases hT with h | h | h | h | h <;> subst h <;> decide
    refine ⟨_, hnew, ?_, Log_rejected Sprintf _ Off f args w (Or.inl rfl)⟩
    rw [Log_admitted Sprintf _ 100 f args w (by decide) hT100, entry_unnamed _ 100 _ w h100]
    rfl

/-- C18 on the sample logger (threshold Debug) at the unnamed severity 35. -/
theorem C18_unnamed_severities_pass_by_threshold_alone_witness :
    (35 : Level) ∉ namedLevels ∧
    countingStub "text" emptyWorld = .ok ("text", { emptyWorld with calls := 1 }) ∧
    Info ∈ ([Fine, Debug, Info, Warn, Error] : List Level) ∧
    Logger.Log plainSprintf (some sampleLogger) 35 "text" [] emptyWorld
      = .ok (emptyWorld.write 0 (sampleLogger.logger.line ("UTC " ++ "text") emptyWorld)) ∧
    (emptyWorld.write 0 (sampleLogger.logger.line ("UTC " ++ "text") emptyWorld)).sinks 0
      = "2024/03/05 11:34:56.789012 UTC text\n" :=
  ⟨by decide, rfl, by decide,
    ((C18_unnamed_severities_pass_by_threshold_alone plainSprintf sampleLogger 35
      (countingStub "text") "text" [] emptyWorld { emptyWorld with calls := 1 } "text" 0 Info
      false (by decide) rfl (by decide)).2.1 (by decide)).1,
    by rfl⟩

end Logx
